import Mathlib

/-!
Verification of the chunked-scan-and-merge engine of the 1brc repository
(`src/main.rs`).

Modelling conventions (shallow embedding):

* A byte is a `Nat` (value < 256); the input file and every buffer is a
  `List Nat`.  The record terminator `b'\n'` is byte 10, the field
  separator `b';'` is byte 59.
* Rust `f64` temperature values are modelled as exact rationals `ℚ`;
  IEEE rounding is outside the model.  `str::parse::<f64>` is modelled on
  the decimal fragment of its grammar (optional sign, digits, optional
  fraction, optional exponent; `inf`/`NaN` forms omitted).
* Every panic of the Rust code (`unwrap` failure, index out of bounds,
  unsigned integer underflow) is modelled as `none`; a function returning
  `none` means the process aborts at that point.
* The Rust `HashMap` (local `BorrowedMap` and the global map) is modelled
  as an association list `List (key × CityResult)`; iteration order of the
  model is insertion order, the map contents as a function from keys to
  statistics is the faithful part.
* Concurrency: each nominal offset 0, CHUNK_SIZE, 2·CHUNK_SIZE, … is
  claimed by `fetch_add` exactly once and local maps are merged under a
  mutex, so the run is modelled as the sequential processing of the
  claimed offsets in increasing order (`distLoop`); a panic in any worker
  makes the whole run abort, which the sequential model reflects by
  propagating `none`.
-/

namespace OneBrc

set_option maxRecDepth 40000

attribute [local semireducible] Rat.add Rat.mul Rat.inv

/-- Rust: `const CHUNK_SIZE: u64 = 16 * 1024 * 1024;` -/
def CHUNK_SIZE : Nat := 16 * 1024 * 1024

/-- Rust: `const CHUNK_EXCESS: u64 = 64;` -/
def CHUNK_EXCESS : Nat := 64

/-- Rust: `struct CityResult { sum: f64, count: f64, min: f64, max: f64 }`,
with `f64` modelled as `ℚ`. -/
structure CityResult where
  sum : ℚ
  count : ℚ
  min : ℚ
  max : ℚ
deriving DecidableEq, BEq

/-- Rust: `CityResult::from(temp)` — all four fields initialized from the
first observed value (count is the float `1.0`). -/
def CityResult.fromTemp (temp : ℚ) : CityResult :=
  { sum := temp, count := 1, min := temp, max := temp }

/-- Rust: `CityResult::update(&mut self, temp)` —
`sum += temp; count += 1.0; min = min.min(temp); max = max.max(temp)`. -/
def CityResult.update (s : CityResult) (temp : ℚ) : CityResult :=
  { sum := s.sum + temp, count := s.count + 1,
    min := Min.min s.min temp, max := Max.max s.max temp }

/-- Rust: `CityResult::merge(self, other)` — entrywise sum/sum/min/max. -/
def CityResult.merge (s other : CityResult) : CityResult :=
  { sum := s.sum + other.sum, count := s.count + other.count,
    min := Min.min s.min other.min, max := Max.max s.max other.max }

/-- The head-realignment loop of `get_aligned_buffer`:
`while head > 0 { if buffer[head - 1] == b'\n' { break; } head -= 1 }`.
The argument is the current value of `head`.  Result `some h` is the final
value of `head`; `none` models the index-out-of-bounds panic that occurs
when `head - 1` is not a valid index of `buffer`. -/
def headScan (buffer : List Nat) : Nat → Option Nat
  | 0 => some 0
  | h + 1 =>
    if h < buffer.length then
      if buffer.getD h 0 = 10 then some (h + 1) else headScan buffer h
    else none

/-- The tail-realignment loop of `get_aligned_buffer`:
`let mut tail = buffer.len() - 1; while buffer[tail] != b'\n' { tail -= 1 }`.
The argument is the current value of `tail` (the caller starts it at
`buffer.len() - 1`).  `none` models the panic reached when no terminator
exists at or below the start index (`tail` underflows past 0 and the
subsequent index is out of bounds). -/
def tailScan (buffer : List Nat) : Nat → Option Nat
  | 0 => if buffer.getD 0 0 = 10 then some 0 else none
  | t + 1 => if buffer.getD (t + 1) 0 = 10 then some (t + 1) else tailScan buffer t

/-- Rust: `get_aligned_buffer(file, offset, buffer)` with `buffer.len() = bufCap`.
Returns the realigned byte slice, `none` for any panic:
* `offset ≠ 0 ∧ offset < CHUNK_EXCESS` models the `u64` underflow of
  `offset - CHUNK_EXCESS` (debug: overflow panic; release: wrapped offset
  makes `read_exact_at` fail and `unwrap` panic);
* the `read_from + buffer_size > file.length` test models `read_exact_at`
  hitting end-of-file (never true for the actual call pattern);
* `headScan` / `tailScan` return `none` for the scan-loop panics;
* `buffer_size = 0` makes `buffer.len() - 1` underflow before `tailScan`.
The successful result `(buffer.drop head).take (tail + 1 - head)` is
`&buffer[head..=tail]`. -/
def get_aligned_buffer (file : List Nat) (offset bufCap : Nat) : Option (List Nat) :=
  let file_size := file.length
  if offset > file_size then some []
  else if offset ≠ 0 ∧ offset < CHUNK_EXCESS then none
  else
    let buffer_size := min bufCap (file_size - offset)
    let head0 := if offset = 0 then 0 else CHUNK_EXCESS
    let read_from := if offset = 0 then 0 else offset - CHUNK_EXCESS
    if read_from + buffer_size > file_size then none
    else
      let buffer := (file.drop read_from).take buffer_size
      match headScan buffer head0 with
      | none => none
      | some head =>
        if buffer_size = 0 then none
        else
          match tailScan buffer (buffer_size - 1) with
          | none => none
          | some tail => some ((buffer.drop head).take (tail + 1 - head))

/-- Rust: `aligned_buffer.split(|&b| b == b'\n')` — fragments between
terminator bytes, empty fragments included (so a trailing terminator
yields one trailing empty fragment). -/
def splitOnNL : List Nat → List (List Nat)
  | [] => [[]]
  | b :: rest =>
    if b = 10 then [] :: splitOnNL rest
    else
      match splitOnNL rest with
      | [] => [[b]]
      | h :: t => (b :: h) :: t

/-- Rust: `line.iter().enumerate().find_map(|(index, &b)| (b == b';').then_some(index))`
— index of the first separator byte, `i` is the running index. -/
def findSep : List Nat → Nat → Option Nat
  | [], _ => none
  | b :: rest, i => if b = 59 then some i else findSep rest (i + 1)

/-- ASCII decimal digit test. -/
def isDigit (b : Nat) : Bool := 48 ≤ b && b ≤ 57

/-- Longest digit run at the front of the byte list, and the remainder. -/
def spanDigits : List Nat → List Nat × List Nat
  | [] => ([], [])
  | b :: rest =>
    if isDigit b then
      let p := spanDigits rest
      (b :: p.1, p.2)
    else ([], b :: rest)

/-- Numeric value of a digit run. -/
def digitsVal (l : List Nat) : Nat := l.foldl (fun a b => a * 10 + (b - 48)) 0

/-- Model of `str::parse::<f64>()` on the decimal fragment of the Rust
grammar: optional sign, then `digits`, `digits . digits?` or `. digits`,
then an optional `e`/`E` exponent with optional sign; the whole input must
be consumed.  Values are exact rationals; `inf`/`NaN` spellings are
outside the model. -/
def parseF64 (s : List Nat) : Option ℚ :=
  let sgn : ℚ × List Nat :=
    match s with
    | 43 :: r => (1, r)
    | 45 :: r => (-1, r)
    | r => (1, r)
  let ip := spanDigits sgn.2
  let core : Option (ℚ × List Nat) :=
    match ip.2 with
    | 46 :: r =>
      let fp := spanDigits r
      if ip.1.isEmpty && fp.1.isEmpty then none
      else some ((digitsVal ip.1 : ℚ) + (digitsVal fp.1 : ℚ) / (10 : ℚ) ^ fp.1.length, fp.2)
    | r => if ip.1.isEmpty then none else some ((digitsVal ip.1 : ℚ), r)
  match core with
  | none => none
  | some (mag, rest) =>
    match rest with
    | [] => some (sgn.1 * mag)
    | e :: r =>
      if e = 101 ∨ e = 69 then
        let esgn : ℤ × List Nat :=
          match r with
          | 43 :: rr => (1, rr)
          | 45 :: rr => (-1, rr)
          | rr => (1, rr)
        let ed := spanDigits esgn.2
        if ed.1.isEmpty || !ed.2.isEmpty then none
        else some (sgn.1 * mag * (10 : ℚ) ^ (esgn.1 * (digitsVal ed.1 : ℤ)))
      else none

/-- Recursion core of the UTF-8 well-formedness test; the fuel argument
only bounds the recursion depth (each step consumes at least one byte, so
fuel equal to the list length is always enough). -/
def validUtf8Go : Nat → List Nat → Bool
  | _, [] => true
  | 0, _ :: _ => false
  | fuel + 1, b :: rest =>
    if b ≤ 0x7F then validUtf8Go fuel rest
    else if b < 0xC2 then false
    else if b ≤ 0xDF then
      match rest with
      | c1 :: r => (0x80 ≤ c1 && c1 ≤ 0xBF) && validUtf8Go fuel r
      | [] => false
    else if b ≤ 0xEF then
      match rest with
      | c1 :: c2 :: r =>
        (if b = 0xE0 then 0xA0 ≤ c1 && c1 ≤ 0xBF
         else if b = 0xED then 0x80 ≤ c1 && c1 ≤ 0x9F
         else 0x80 ≤ c1 && c1 ≤ 0xBF) &&
        ((0x80 ≤ c2 && c2 ≤ 0xBF) && validUtf8Go fuel r)
      | _ => false
    else if b ≤ 0xF4 then
      match rest with
      | c1 :: c2 :: c3 :: r =>
        (if b = 0xF0 then 0x90 ≤ c1 && c1 ≤ 0xBF
         else if b = 0xF4 then 0x80 ≤ c1 && c1 ≤ 0x8F
         else 0x80 ≤ c1 && c1 ≤ 0xBF) &&
        ((0x80 ≤ c2 && c2 ≤ 0xBF) && ((0x80 ≤ c3 && c3 ≤ 0xBF) && validUtf8Go fuel r))
      | _ => false
    else false

/-- Model of `std::str::from_utf8(..).is_ok()`: the standard UTF-8
well-formedness test (RFC 3629: continuation ranges, overlong and
surrogate exclusions, max U+10FFFF). -/
def validUtf8 (l : List Nat) : Bool := validUtf8Go l.length l

/-- Worker-local map: keys are borrowed byte slices (`BorrowedMap`). -/
abbrev LMap := List (List Nat × CityResult)

/-- Global map: in Rust keyed by the decoded `String`; UTF-8 decoding is
injective, so the model keeps the (validated) key bytes. -/
abbrev GMap := List (List Nat × CityResult)

/-- Association-list lookup (model of `HashMap` lookup). -/
def alookup (k : List Nat) : List (List Nat × CityResult) → Option CityResult
  | [] => none
  | (k2, s) :: rest => if k2 = k then some s else alookup k rest

/-- Rust: `map.entry(city).and_modify(|r| r.update(temp)).or_insert_with(|| CityResult::from(temp))`. -/
def upsert : LMap → List Nat → ℚ → LMap
  | [], k, v => [(k, CityResult.fromTemp v)]
  | (k2, s) :: rest, k, v =>
    if k2 = k then (k2, s.update v) :: rest
    else (k2, s) :: upsert rest k v

/-- Rust: `outer.entry(city.to_string()).and_modify(|o| *o = o.merge(r)).or_insert(r)`. -/
def gupsert : GMap → List Nat → CityResult → GMap
  | [], k, s => [(k, s)]
  | (k2, s2) :: rest, k, s =>
    if k2 = k then (k2, s2.merge s) :: rest
    else (k2, s2) :: gupsert rest k s

/-- One line of the record-parse loop in `process_buffer`: find the
separator (`unwrap` panics when missing), split into key and value bytes,
decode the value bytes as UTF-8 (`unwrap`), parse the float (`unwrap`). -/
def parseLine (line : List Nat) : Option (List Nat × ℚ) :=
  match findSep line 0 with
  | none => none
  | some i =>
    let tempB := line.drop (i + 1)
    if validUtf8 tempB then
      match parseF64 tempB with
      | none => none
      | some q => some (line.take i, q)
    else none

/-- The record loop of `process_buffer` over the non-empty fragments of
the aligned buffer, accumulating the worker-local map. -/
def buildLocal : List (List Nat) → LMap → Option LMap
  | [], m => some m
  | line :: rest, m =>
    match parseLine line with
    | none => none
    | some kv => buildLocal rest (upsert m kv.1 kv.2)

/-- The merge loop of `process_buffer`: for each local entry, decode the
key bytes as UTF-8 (`unwrap` panics on invalid keys) and merge into the
global map. -/
def mergeInto (g : GMap) : LMap → Option GMap
  | [] => some g
  | (k, s) :: rest =>
    if validUtf8 k then mergeInto (gupsert g k s) rest else none

/-- The parse-and-merge part of `process_buffer`, applied to an already
realigned buffer. -/
def processAligned (g : GMap) (buf : List Nat) : Option GMap :=
  match buildLocal ((splitOnNL buf).filter (fun l => !l.isEmpty)) [] with
  | none => none
  | some m => mergeInto g m

/-- Rust: `process_buffer(file, thread_offset, thread_result, thread_buffer)`. -/
def processBuffer (file : List Nat) (offset cap : Nat) (g : GMap) : Option GMap :=
  match get_aligned_buffer file offset cap with
  | none => none
  | some buf => processAligned g buf

/-- The worker loop of `distribute_work`, linearized: claim offsets
`0, c, 2c, …` and process each until the claimed offset exceeds the file
length.  The fuel argument strictly exceeds the number of claims, so the
`0` case is unreachable for the fuel chosen in `distributeWork`. -/
def distLoop (file : List Nat) (c cap : Nat) : Nat → Nat → GMap → Option GMap
  | 0, _, _ => none
  | fuel + 1, off, g =>
    if off > file.length then some g
    else
      match processBuffer file off cap g with
      | none => none
      | some g2 => distLoop file c cap fuel (off + c) g2

/-- Rust: `distribute_work(file)`, parametrized by the chunk size `c`
(the code runs it at `c = CHUNK_SIZE`); each worker allocates the buffer
`vec![0; CHUNK_SIZE + CHUNK_EXCESS]`, hence capacity `c + CHUNK_EXCESS`. -/
def distributeWork (file : List Nat) (c : Nat) : Option GMap :=
  distLoop file c (c + CHUNK_EXCESS) (file.length / c + 2) 0 []

/-- The Statistics invariant of the spec: count at least one, min ≤ max. -/
def StatInv (s : CityResult) : Prop := 1 ≤ s.count ∧ s.min ≤ s.max

instance (s : CityResult) : Decidable (StatInv s) := by
  unfold StatInv; infer_instance

/-- C5: `CityResult::merge` is commutative and associative (values
modelled as exact rationals), so the final global map is independent of
the order in which worker-local maps are merged in. -/
theorem c5_merge_comm_assoc (a b c : CityResult) :
    a.merge b = b.merge a ∧ (a.merge b).merge c = a.merge (b.merge c) := by
  constructor
  · simp only [CityResult.merge, CityResult.mk.injEq]
    exact ⟨add_comm _ _, add_comm _ _, min_comm _ _, max_comm _ _⟩
  · simp only [CityResult.merge, CityResult.mk.injEq]
    exact ⟨add_assoc _ _ _, add_assoc _ _ _, min_assoc _ _ _, max_assoc _ _ _⟩

/-- C8: the Statistics invariant `count ≥ 1 ∧ min ≤ max` holds on creation
from a single value and is preserved by `update` and by `merge` of two
values satisfying it. -/
theorem c8_invariant_preserved :
    (∀ v : ℚ, StatInv (CityResult.fromTemp v)) ∧
    (∀ (s : CityResult) (v : ℚ), StatInv s → StatInv (s.update v)) ∧
    (∀ a b : CityResult, StatInv a → StatInv b → StatInv (a.merge b)) := by
  refine ⟨fun v => ⟨le_refl 1, le_refl v⟩, fun s v h => ⟨?_, ?_⟩, fun a b ha hb => ⟨?_, ?_⟩⟩
  · have := h.1; simp only [CityResult.update]; linarith
  · exact le_trans (min_le_left _ _) (le_trans h.2 (le_max_left _ _))
  · have := ha.1; have := hb.1; simp only [CityResult.merge]; linarith
  · exact le_trans (min_le_left _ _) (le_trans ha.2 (le_max_left _ _))

/-- Witness for C8 at concrete statistics values. -/
theorem c8_invariant_witness :
    StatInv ((CityResult.fromTemp 2).update 3) ∧
    StatInv ((CityResult.fromTemp 2).merge (CityResult.fromTemp 5)) :=
  ⟨c8_invariant_preserved.2.1 (CityResult.fromTemp 2) 3 (by decide),
   c8_invariant_preserved.2.2 (CityResult.fromTemp 2) (CityResult.fromTemp 5)
     (by decide) (by decide)⟩

/-- The 21-byte scenario file of the spec: the bytes of
AA;3.0 / BB;4.0 / AA;1.0, each record terminated by byte 10. -/
def file21 : List Nat :=
  [65, 65, 59, 51, 46, 48, 10,
   66, 66, 59, 52, 46, 48, 10,
   65, 65, 59, 49, 46, 48, 10]

/-- C3 (divergence witness): on the empty file the run does not produce
the empty map — the first chunk's tail realignment computes
buffer.len() - 1 on the zero-length clamped buffer, which underflows, and
the run aborts (modelled as none). -/
theorem c3_empty_file_panics : distributeWork [] CHUNK_SIZE = none := by decide

/-- C2 counterexample: chunk size 11 splits the 21-byte scenario file
into exactly two nominal chunks (offsets 0 and 11), yet the run aborts
(the second chunk's offset is smaller than CHUNK_EXCESS = 64, so
offset - CHUNK_EXCESS underflows before the read), so the final map is
not produced at all. -/
theorem c2_two_chunk_split_aborts :
    11 ≤ 21 ∧ ¬ 2 * 11 ≤ 21 ∧ distributeWork file21 11 = none := by decide

/-- Expected final statistics of the spec scenario: AA with
sum 4, count 2 (hence mean 2), min 1, max 3; BB with sum 4, count 1,
min 4, max 4; and no other key. -/
def c2ExpectedMap (r : Option GMap) : Bool :=
  match r with
  | some m =>
    alookup [65, 65] m == some { sum := 4, count := 2, min := 1, max := 3 } &&
    alookup [66, 66] m == some { sum := 4, count := 1, min := 4, max := 4 } &&
    m.length == 2
  | none => false

/-- C2 amended: every chunk size that splits the 21-byte scenario file
into two nominal chunks (11 ≤ c ≤ 21) makes the run abort, because the
second chunk's offset c is smaller than CHUNK_EXCESS and
offset - CHUNK_EXCESS underflows; the expected map
(AA: min 1, max 3, mean 2; BB: min 4, max 4, mean 4) is produced when the
file is processed as a single chunk, as with the code's actual
CHUNK_SIZE. -/
theorem c2_single_chunk_result :
    (∀ c : Nat, 11 ≤ c → c ≤ 21 → distributeWork file21 c = none) ∧
    c2ExpectedMap (distributeWork file21 CHUNK_SIZE) = true := by
  constructor
  · intro c h1 h2
    interval_cases c <;> decide
  · decide

/-- Witness for the amended C2 at the concrete two-chunk size 11. -/
theorem c2_single_chunk_witness :
    distributeWork file21 11 = none ∧
    c2ExpectedMap (distributeWork file21 CHUNK_SIZE) = true :=
  ⟨c2_single_chunk_result.1 11 (by decide) (by decide), c2_single_chunk_result.2⟩

/-- One 8-byte record AAA;v.0 with terminator, v a digit byte. -/
def recB (v : Nat) : List Nat := [65, 65, 65, 59, v, 46, 48, 10]

/-- A 320-byte file of forty 8-byte records with key AAA: sixteen records
1.0, eight records 2.0, eight records 1.0, eight records 9.0.  Its true
aggregate is sum 112, count 40, min 1, max 9. -/
def file320 : List Nat :=
  (List.replicate 16 (recB 49)).flatten ++ (List.replicate 8 (recB 50)).flatten ++
  (List.replicate 8 (recB 49)).flatten ++ (List.replicate 8 (recB 57)).flatten

/-- C1 (divergence witness, chunk size scaled from 16 MiB to 128 with the
code's buffer sizing c + CHUNK_EXCESS kept): the run over the 320-byte
file returns sum 56, max 2 for AAA, while the file's records aggregate to
sum 112, max 9 (computed by parsing the whole file as one aligned
buffer).  Chunk 0's realigned range reaches the last terminator inside
[0, c + 64), past chunk 1's realigned start (the 8 records in
[128, 192) are counted twice), and the last 64 bytes of the file are
inside no chunk's read buffer (the 8 records of value 9.0 are dropped):
the realigned ranges neither are disjoint nor cover every record byte. -/
theorem c1_coverage_bug_demo :
    distributeWork file320 128 =
      some [([65, 65, 65], { sum := 56, count := 40, min := 1, max := 2 })] ∧
    processAligned [] file320 =
      some [([65, 65, 65], { sum := 112, count := 40, min := 1, max := 9 })] := by
  constructor <;> decide

/-- A 136-byte file: 64 bytes 65 (no terminator anywhere in the first 64
bytes) followed by twelve 6-byte records B;1.0. -/
def file136 : List Nat :=
  List.replicate 64 65 ++ (List.replicate 12 [66, 59, 49, 46, 48, 10]).flatten

/-- C4 counterexample: a call with nominal start 64 whose 64-byte
lookback margin (file positions 0..63) contains no record terminator does
not abort: it returns a 70-byte slice that starts at file position
offset - CHUNK_EXCESS = 0, i.e. it silently continues with the margin
bytes included instead of raising an alignment error. -/
theorem c4_no_abort_counterexample :
    (∀ i : Nat, i < CHUNK_EXCESS → file136.getD (64 - CHUNK_EXCESS + i) 0 ≠ 10) ∧
    get_aligned_buffer file136 64 128 =
      some (List.replicate 64 65 ++ [66, 59, 49, 46, 48, 10]) := by
  constructor <;> decide

/-- A record fragment whose parse step panics makes the whole record loop
abort: helper for C7. -/
lemma buildLocal_none_of_mem (lns : List (List Nat)) (line : List Nat)
    (hmem : line ∈ lns) (hp : parseLine line = none) :
    ∀ m : LMap, buildLocal lns m = none := by
  induction lns with
  | nil => cases hmem
  | cons hd tl ih =>
    intro m
    rcases List.mem_cons.mp hmem with heq | htl
    · subst heq
      simp [buildLocal, hp]
    · cases hph : parseLine hd with
      | none => simp [buildLocal, hph]
      | some kv =>
        simp only [buildLocal, hph]
        exact ih htl _

/-- C7: a non-empty line fragment of an aligned chunk that has no
separator byte, or whose value bytes are not valid UTF-8, or whose value
bytes do not parse as a float, makes the whole chunk-processing step
abort: no local or partial global map is produced (modelled as none). -/
theorem c7_format_error_aborts (g : GMap) (buf line : List Nat)
    (hmem : line ∈ (splitOnNL buf).filter (fun l => !l.isEmpty))
    (hbad : findSep line 0 = none ∨
      ∃ i, findSep line 0 = some i ∧
        (validUtf8 (line.drop (i + 1)) = false ∨ parseF64 (line.drop (i + 1)) = none)) :
    processAligned g buf = none := by
  have hp : parseLine line = none := by
    rcases hbad with h | ⟨i, hi, hcase⟩
    · simp [parseLine, h]
    · rcases hcase with hu | hq
      · simp [parseLine, hi, hu]
      · by_cases hv : validUtf8 (line.drop (i + 1)) <;> simp [parseLine, hi, hv, hq]
  simp [processAligned, buildLocal_none_of_mem _ line hmem hp]

/-- Witness for C7: the chunk AA3.0 with terminator has a fragment with
no separator byte, so processing it aborts. -/
theorem c7_format_error_witness : processAligned [] [65, 65, 51, 46, 48, 10] = none :=
  c7_format_error_aborts [] [65, 65, 51, 46, 48, 10] [65, 65, 51, 46, 48]
    (by decide) (Or.inl (by decide))

/-- A local-map entry whose key bytes are not valid UTF-8 makes the merge
loop abort, whatever the global map: helper for C10. -/
lemma mergeInto_none_of_mem (m : LMap) :
    ∀ (g : GMap) (k : List Nat) (s : CityResult),
      (k, s) ∈ m → validUtf8 k = false → mergeInto g m = none := by
  induction m with
  | nil => intro g k s hs _; cases hs
  | cons hd tl ih =>
    intro g k s hs hbad
    obtain ⟨k2, s2⟩ := hd
    rcases List.mem_cons.mp hs with heq | htl
    · injection heq with hk2 hs2
      subst hk2
      simp [mergeInto, hbad]
    · by_cases hv : validUtf8 k2
      · simp only [mergeInto, hv, if_true]
        exact ih _ k s htl hbad
      · simp [mergeInto, hv]

/-- C10: key bytes are not validated while parsing and locally
aggregating a chunk (the local pass can succeed with a non-UTF-8 key in
its map); the keys are decoded only in the merge loop, so such a run
aborts at merge time, after the chunk was fully parsed and aggregated. -/
theorem c10_key_utf8_checked_at_merge (g : GMap) (buf : List Nat) (m : LMap)
    (k : List Nat) (s : CityResult)
    (hlocal : buildLocal ((splitOnNL buf).filter (fun l => !l.isEmpty)) [] = some m)
    (hmem : (k, s) ∈ m) (hbad : validUtf8 k = false) :
    processAligned g buf = none := by
  simp only [processAligned, hlocal]
  exact mergeInto_none_of_mem m g k s hmem hbad

/-- Witness for C10: the chunk 0xFF;1 parses and aggregates locally (its
key byte 255 is not valid UTF-8), and the merge step then aborts. -/
theorem c10_key_utf8_witness :
    buildLocal ((splitOnNL [255, 59, 49, 10]).filter (fun l => !l.isEmpty)) [] =
      some [([255], { sum := 1, count := 1, min := 1, max := 1 })] ∧
    processAligned [] [255, 59, 49, 10] = none :=
  ⟨by decide,
   c10_key_utf8_checked_at_merge [] [255, 59, 49, 10]
     [([255], { sum := 1, count := 1, min := 1, max := 1 })]
     [255] { sum := 1, count := 1, min := 1, max := 1 }
     (by decide) (List.Mem.head _) (by decide)⟩

/-- One observation step of the local aggregator, as a function of the
present per-key state: absent keys are initialized with
CityResult.fromTemp, present keys are updated with CityResult.update
(exactly the and_modify / or_insert_with pair of process_buffer). -/
def observe (st : Option CityResult) (v : ℚ) : CityResult :=
  match st with
  | none => CityResult.fromTemp v
  | some s => s.update v

/-- Feeding a sequence of (key, value) observations to the local
aggregator, starting from the empty local map. -/
def feedAll (recs : List (List Nat × ℚ)) : LMap :=
  recs.foldl (fun m r => upsert m r.1 r.2) []

/-- Lookup after one upsert: the touched key sees one observe step, every
other key is untouched. -/
lemma alookup_upsert (m : LMap) :
    ∀ (k q : List Nat) (v : ℚ),
      alookup k (upsert m q v) =
        if q = k then some (observe (alookup k m) v) else alookup k m := by
  induction m with
  | nil =>
    intro k q v
    by_cases h : q = k <;> simp [upsert, alookup, observe, h]
  | cons hd tl ih =>
    intro k q v
    obtain ⟨k2, s2⟩ := hd
    by_cases h1 : k2 = q
    · subst h1
      by_cases h2 : k2 = k <;> simp [upsert, alookup, observe, h2]
    · by_cases h2 : k2 = k
      · subst h2
        have hqk : ¬ q = k2 := fun h => h1 h.symm
        simp [upsert, alookup, h1, hqk]
      · simp [upsert, alookup, h1, h2, ih]

/-- Lookup after feeding a record list into the aggregator: the key's
state is the fold of its own observed values over the initial state. -/
lemma alookup_feed (recs : List (List Nat × ℚ)) :
    ∀ (m : LMap) (k : List Nat),
      alookup k (recs.foldl (fun m2 r => upsert m2 r.1 r.2) m) =
        ((recs.filter (fun r => r.1 == k)).map (fun r => r.2)).foldl
          (fun st v => some (observe st v)) (alookup k m) := by
  induction recs with
  | nil => intro m k; rfl
  | cons r recs ih =>
    intro m k
    obtain ⟨q, v⟩ := r
    rw [List.foldl_cons, ih]
    by_cases h : q = k
    · simp [List.filter_cons, h, alookup_upsert]
    · have hb : ((q, v).1 == k) = false := by simpa using h
      simp [List.filter_cons, hb, alookup_upsert, h]

/-- After the first observation the aggregator state never leaves some. -/
lemma foldl_observe_some (vs : List ℚ) :
    ∀ s : CityResult,
      vs.foldl (fun st v => some (observe st v)) (some s) =
        some (vs.foldl CityResult.update s) := by
  induction vs with
  | nil => intro s; rfl
  | cons v vs ih => intro s; simp only [List.foldl_cons, observe]; exact ih _

/-- Closed form of a fold of updates: fields are the running sum (in
observation order), the count, and the running min and max. -/
lemma foldl_update_closed (vs : List ℚ) :
    ∀ s : CityResult,
      vs.foldl CityResult.update s =
        { sum := vs.foldl (· + ·) s.sum, count := s.count + vs.length,
          min := vs.foldl Min.min s.min, max := vs.foldl Max.max s.max } := by
  induction vs with
  | nil => intro s; simp
  | cons v vs ih =>
    intro s
    rw [List.foldl_cons, ih]
    simp only [CityResult.update, List.foldl_cons, List.length_cons]
    congr 1
    push_cast
    ring

/-- C6: for a key whose observed values (in order) are v :: vs, the local
aggregator's final Statistics for that key have sum the order-respecting
sum of the values, count their number, and min and max their entrywise
minimum and maximum; the first observation initializes the state and each
later one adds, increments and takes min/max. -/
theorem c6_aggregation_correct (recs : List (List Nat × ℚ)) (k : List Nat)
    (v : ℚ) (vs : List ℚ)
    (h : (recs.filter (fun r => r.1 == k)).map (fun r => r.2) = v :: vs) :
    alookup k (feedAll recs) =
      some { sum := vs.foldl (· + ·) v, count := (vs.length : ℚ) + 1,
             min := vs.foldl Min.min v, max := vs.foldl Max.max v } := by
  unfold feedAll
  rw [alookup_feed recs [] k, h,
    show alookup k ([] : LMap) = none from rfl, List.foldl_cons,
    foldl_observe_some, foldl_update_closed]
  show some (CityResult.mk _ (1 + (vs.length : ℚ)) _ _) = _
  rw [add_comm (1 : ℚ) (vs.length : ℚ)]
  rfl

/-- Witness for C6: key A observed with 3 then 1 (interleaved with key B)
yields sum 4, count 2, min 1, max 3. -/
theorem c6_aggregation_witness :
    alookup [65] (feedAll [([65], 3), ([66], 4), ([65], 1)]) =
      some { sum := [(1:ℚ)].foldl (· + ·) 3, count := ([(1:ℚ)].length : ℚ) + 1,
             min := [(1:ℚ)].foldl Min.min 3, max := [(1:ℚ)].foldl Max.max 3 } :=
  c6_aggregation_correct [([65], 3), ([66], 4), ([65], 1)] [65] 3 [1] (by decide)

/-- A chunk claimed exactly at end of file panics in get_aligned_buffer:
the clamped buffer is empty, and either the head scan indexes out of
bounds (offset at least CHUNK_EXCESS) or the offset subtraction already
underflows (offset below CHUNK_EXCESS). -/
lemma gab_at_eof (file : List Nat) (offset cap : Nat)
    (h0 : 0 < offset) (he : offset = file.length) :
    get_aligned_buffer file offset cap = none := by
  subst he
  have hne : ¬ (file.length = 0) := by omega
  by_cases hlt : file.length < CHUNK_EXCESS
  · simp [get_aligned_buffer, hne, hlt]
  · have hread : ¬ (file.length - CHUNK_EXCESS + Min.min cap (file.length - file.length) >
      file.length) := by omega
    have hh : headScan ([] : List Nat) CHUNK_EXCESS = none := by decide
    simp [get_aligned_buffer, hne, hlt, Nat.sub_self, Nat.min_zero, hread, hh]

/-- Once the linearized worker loop stands at offset j·c with the file
length equal to k·c (j ≤ k), it ends in the end-of-file panic: either an
earlier chunk already aborts, or the loop reaches offset k·c and
get_aligned_buffer panics there. -/
lemma distLoop_eof (file : List Nat) (c cap : Nat) (hc : 0 < c) (k : Nat)
    (hk : 0 < k) (hlen : file.length = k * c) :
    ∀ (n j : Nat) (g : GMap) (fuel : Nat), j + n = k → n + 1 ≤ fuel →
      distLoop file c cap fuel (j * c) g = none := by
  intro n
  induction n with
  | zero =>
    intro j g fuel hj hf
    have hj2 : j = k := by omega
    obtain ⟨fuel2, rfl⟩ : ∃ f2, fuel = f2 + 1 := ⟨fuel - 1, by omega⟩
    have hjc : j * c = file.length := by rw [hj2, hlen]
    have hng : ¬ (j * c > file.length) := by omega
    have hpos : 0 < j * c := by rw [hj2]; exact Nat.mul_pos hk hc
    have hpb : processBuffer file (j * c) cap g = none := by
      unfold processBuffer
      rw [gab_at_eof file (j * c) cap hpos hjc]
    simp [distLoop, hng, hpb]
  | succ n ih =>
    intro j g fuel hj hf
    obtain ⟨fuel2, rfl⟩ : ∃ f2, fuel = f2 + 1 := ⟨fuel - 1, by omega⟩
    have hjk : j * c ≤ k * c := Nat.mul_le_mul_right c (by omega)
    have hng : ¬ (j * c > file.length) := by omega
    simp only [distLoop, hng, if_false, ite_false, if_neg hng]
    cases hpb : processBuffer file (j * c) cap g with
    | none => rfl
    | some g2 =>
      have hstep : j * c + c = (j + 1) * c := by ring
      rw [hstep]
      exact ih (j + 1) g2 fuel2 (by omega) (by omega)

/-- C9: when a positive offset equals the file length,
get_aligned_buffer does not return: the clamped buffer is empty and the
head scan indexes into it (panic, modelled as none).  Such a call is
reached from distribute_work whenever the file length is a positive exact
multiple of CHUNK_SIZE, since the worker loop stops only when the claimed
offset strictly exceeds the file length — so the whole run aborts. -/
theorem c9_eof_chunk_panics (file : List Nat) (k : Nat) (hk : 0 < k)
    (hlen : file.length = k * CHUNK_SIZE) :
    get_aligned_buffer file file.length (CHUNK_SIZE + CHUNK_EXCESS) = none ∧
    distributeWork file CHUNK_SIZE = none := by
  have hcs : 0 < CHUNK_SIZE := by norm_num [CHUNK_SIZE]
  constructor
  · exact gab_at_eof file file.length _ (by rw [hlen]; exact Nat.mul_pos hk hcs) rfl
  · unfold distributeWork
    have hf : file.length / CHUNK_SIZE + 2 = k + 2 := by
      rw [hlen, Nat.mul_div_cancel _ hcs]
    rw [hf]
    have := distLoop_eof file CHUNK_SIZE (CHUNK_SIZE + CHUNK_EXCESS) hcs k hk hlen
      k 0 [] (k + 2) (by omega) (by omega)
    simpa using this

/-- Witness for C9: a file of exactly CHUNK_SIZE bytes (k = 1). -/
theorem c9_eof_chunk_witness :
    get_aligned_buffer (List.replicate CHUNK_SIZE 65)
      (List.replicate CHUNK_SIZE 65).length (CHUNK_SIZE + CHUNK_EXCESS) = none ∧
    distributeWork (List.replicate CHUNK_SIZE 65) CHUNK_SIZE = none :=
  c9_eof_chunk_panics (List.replicate CHUNK_SIZE 65) 1 (by decide)
    (by simp [List.length_replicate])

/-- When no byte below index h is a terminator (and h is within bounds),
the head-realignment loop runs all the way down and stops with head 0
instead of signalling anything. -/
lemma headScan_zero (buffer : List Nat) :
    ∀ h : Nat, h ≤ buffer.length → (∀ i, i < h → buffer.getD i 0 ≠ 10) →
      headScan buffer h = some 0 := by
  intro h
  induction h with
  | zero => intro _ _; rfl
  | succ h2 ih =>
    intro hle hno
    have hlt : h2 < buffer.length := by omega
    have hne : ¬ (buffer.getD h2 0 = 10) := hno h2 (by omega)
    simp only [headScan]
    rw [if_pos hlt, if_neg hne]
    exact ih (by omega) (fun i hi => hno i (by omega))

/-- C4 amended: when no record terminator occurs in the CHUNK_EXCESS-byte
lookback margin before a nominal start (offset at least CHUNK_EXCESS, and
the clamped read buffer at least CHUNK_EXCESS bytes long), the call does
not abort with an alignment error: the head scan silently ends with head
0, so the call behaves as if the chunk began at offset - CHUNK_EXCESS —
the result is exactly the tail-scan outcome applied to a slice that
starts with the margin bytes. -/
theorem c4_amended_head_zero (file : List Nat) (offset cap : Nat)
    (h1 : CHUNK_EXCESS ≤ offset)
    (hmargin : ∀ i, i < CHUNK_EXCESS → file.getD (offset - CHUNK_EXCESS + i) 0 ≠ 10)
    (hbs : CHUNK_EXCESS ≤ Min.min cap (file.length - offset)) :
    get_aligned_buffer file offset cap =
      (tailScan ((file.drop (offset - CHUNK_EXCESS)).take (Min.min cap (file.length - offset)))
          (Min.min cap (file.length - offset) - 1)).map
        (fun t =>
          ((file.drop (offset - CHUNK_EXCESS)).take (Min.min cap (file.length - offset))).take
            (t + 1)) := by
  have hce : CHUNK_EXCESS = 64 := rfl
  have hmr : Min.min cap (file.length - offset) ≤ file.length - offset :=
    Nat.min_le_right _ _
  have hof : offset + CHUNK_EXCESS ≤ file.length := by omega
  have hnot : ¬ (offset > file.length) := by omega
  have hne0 : ¬ (offset = 0) := by omega
  have hcond : ¬ (offset ≠ 0 ∧ offset < CHUNK_EXCESS) := by omega
  have hread : ¬ (offset - CHUNK_EXCESS + Min.min cap (file.length - offset) > file.length) := by
    omega
  have hblen : ((file.drop (offset - CHUNK_EXCESS)).take
      (Min.min cap (file.length - offset))).length = Min.min cap (file.length - offset) := by
    simp only [List.length_take, List.length_drop]
    omega
  have hget : ∀ i, i < CHUNK_EXCESS →
      ((file.drop (offset - CHUNK_EXCESS)).take (Min.min cap (file.length - offset))).getD i 0 =
        file.getD (offset - CHUNK_EXCESS + i) 0 := by
    intro i hi
    rw [List.getD_eq_getElem?_getD, List.getD_eq_getElem?_getD,
      List.getElem?_take_of_lt (by omega), List.getElem?_drop]
  have hhs : headScan ((file.drop (offset - CHUNK_EXCESS)).take
      (Min.min cap (file.length - offset))) CHUNK_EXCESS = some 0 := by
    refine headScan_zero _ CHUNK_EXCESS (by omega) (fun i hi => ?_)
    rw [hget i hi]
    exact hmargin i hi
  have hbs0 : ¬ (Min.min cap (file.length - offset) = 0) := by omega
  unfold get_aligned_buffer
  rw [if_neg hnot, if_neg hcond, if_neg hne0, if_neg hne0, if_neg hread]
  simp only [hhs, if_neg hbs0]
  cases htail : tailScan ((file.drop (offset - CHUNK_EXCESS)).take
      (Min.min cap (file.length - offset))) (Min.min cap (file.length - offset) - 1) with
  | none => simp [htail]
  | some t => simp [htail]

/-- Witness for the amended C4: the 136-byte file whose first 64 bytes
contain no terminator, nominal start 64, buffer capacity 128. -/
theorem c4_amended_witness :
    get_aligned_buffer file136 64 128 =
      (tailScan ((file136.drop (64 - CHUNK_EXCESS)).take (Min.min 128 (file136.length - 64)))
          (Min.min 128 (file136.length - 64) - 1)).map
        (fun t =>
          ((file136.drop (64 - CHUNK_EXCESS)).take (Min.min 128 (file136.length - 64))).take
            (t + 1)) :=
  c4_amended_head_zero file136 64 128 (by decide) (by decide) (by decide)

end OneBrc
